import Mathlib

/-!
Verification of the Labor-law LINE bot core (src/index.js, src/articles.js).

JavaScript strings are modelled as lists of Unicode code points (`JStr`);
numbers that only ever hold finite decimal values are modelled as `ℚ`;
the absent / `NaN` hourly wage is modelled as `none : Option ℚ`;
fallible code returns `Option` / `Except`.
-/

set_option maxRecDepth 4000

namespace LaborBot

/-- JavaScript string, modelled as its list of code points. -/
abbrev JStr := List Char

/-- Code-point list of a Lean string literal. -/
def js (s : String) : JStr := s.data

/-- Whitespace test, modelling the JavaScript `\s` character class
(the code points matched by `/\s/`). -/
def isWs (c : Char) : Bool :=
  c.toNat = 9 || c.toNat = 10 || c.toNat = 11 || c.toNat = 12 || c.toNat = 13 ||
  c.toNat = 32 || c.toNat = 160 || c.toNat = 5760 ||
  (8192 ≤ c.toNat && c.toNat ≤ 8202) ||
  c.toNat = 8232 || c.toNat = 8233 || c.toNat = 8239 || c.toNat = 8287 ||
  c.toNat = 12288 || c.toNat = 65279

/-- `normalize` from src/index.js and src/articles.js:
`text.toLowerCase().replace(/\s+/g, "")`. -/
def normalizeJ (l : JStr) : JStr :=
  (l.map Char.toLower).filter (fun c => !isWs c)

/-- JavaScript `String.prototype.trim`: drop leading whitespace. -/
def trimLeftJ (l : JStr) : JStr := l.dropWhile isWs

/-- JavaScript `String.prototype.trim`: drop whitespace at both ends. -/
def trimJ (l : JStr) : JStr := ((trimLeftJ l).reverse.dropWhile isWs).reverse

/-- JavaScript `s.startsWith(p)`. -/
def startsWithJ : JStr → JStr → Bool
  | _, [] => true
  | [], _ :: _ => false
  | c :: s, d :: p => if c = d then startsWithJ s p else false

/-- JavaScript `s.includes(p)` (substring containment). -/
def containsSub (s p : JStr) : Bool :=
  match s with
  | [] => startsWithJ [] p
  | _ :: rest => startsWithJ s p || containsSub rest p

/-- Helper for `splitWs`: accumulates the current token reversed. -/
def splitWsGo : JStr → JStr → List JStr
  | [], cur => if cur = [] then [] else [cur.reverse]
  | c :: rest, cur =>
    if isWs c then
      (if cur = [] then splitWsGo rest [] else cur.reverse :: splitWsGo rest [])
    else splitWsGo rest (c :: cur)

/-- JavaScript `s.split(/\s+/).filter(Boolean)`: whitespace-separated tokens. -/
def splitWs (l : JStr) : List JStr := splitWsGo l []

/-! ## Overtime-pay calculator (src/index.js lines 865-963) -/

/-- ASCII decimal digit. -/
def isDigit10 (c : Char) : Bool := 48 ≤ c.toNat && c.toNat ≤ 57

/-- Digit or decimal point: the characters kept by `replace(/[^\d.]/g, "")`. -/
def isDigitOrDot (c : Char) : Bool := isDigit10 c || c = '.'

/-- Value of a list of ASCII digits read in base 10. -/
def decDigitsVal (l : JStr) : Nat := l.foldl (fun a c => a * 10 + (c.toNat - 48)) 0

/-- JavaScript `parseFloat` restricted to strings of digits and dots
(the only inputs it receives after the `[^\d.]` filter): the longest valid
numeric head is parsed, anything after it is ignored, `NaN` is `none`. -/
def jsParseFloat (s : JStr) : Option ℚ :=
  match s.drop (s.takeWhile isDigit10).length with
  | '.' :: r2 =>
    if s.takeWhile isDigit10 = [] ∧ r2.takeWhile isDigit10 = [] then none
    else
      some ((decDigitsVal (s.takeWhile isDigit10) : ℚ) +
        (decDigitsVal (r2.takeWhile isDigit10) : ℚ) / 10 ^ (r2.takeWhile isDigit10).length)
  | _ =>
    if s.takeWhile isDigit10 = [] then none
    else some (decDigitsVal (s.takeWhile isDigit10) : ℚ)

/-- Parameter record built by `parseOtArgs`; `hourly = none` models the
`NaN` default / a `NaN`-producing wage token. -/
structure OtParams where
  hourly : Option ℚ
  weekday : ℚ
  rest : ℚ
  holiday : ℚ
  weekdayRate1 : ℚ
  weekdayRate2 : ℚ
  restRate : ℚ
  holidayRate : ℚ
deriving DecidableEq, Repr

/-- Defaults from `parseOtArgs`. -/
def defaultOtParams : OtParams :=
  { hourly := none, weekday := 0, rest := 0, holiday := 0,
    weekdayRate1 := 133 / 100, weekdayRate2 := 166 / 100,
    restRate := 2, holidayRate := 2 }

/-- `mapKeys` from `parseOtArgs` (src/index.js lines 880-891): each regex
`.test` is an unanchored substring search on the lower-cased key, the rules
are tried in source order, an unmatched key falls through unchanged. -/
def mapKeys (k : JStr) : JStr :=
  let kk := k.map Char.toLower
  if containsSub kk (js "時薪") || containsSub kk (js "hour") ||
     containsSub kk (js "hourly") || containsSub kk (js "wage") then js "hourly"
  else if containsSub kk (js "平日加班") || containsSub kk (js "平日") then js "weekday"
  else if containsSub kk (js "休息日加班") || containsSub kk (js "休息日") ||
          containsSub kk (js "休假日") then js "rest"
  else if containsSub kk (js "假日加班") || containsSub kk (js "國定假日") ||
          containsSub kk (js "國假") || containsSub kk (js "假日") then js "holiday"
  else if containsSub kk (js "平日倍數1") || containsSub kk (js "weekdayrate1") ||
          containsSub kk (js "wkr1") then js "weekdayRate1"
  else if containsSub kk (js "平日倍數2") || containsSub kk (js "weekdayrate2") ||
          containsSub kk (js "wkr2") then js "weekdayRate2"
  else if containsSub kk (js "休息日倍數") || containsSub kk (js "restrate") then js "restRate"
  else if containsSub kk (js "假日倍數") || containsSub kk (js "holidayrate") then js "holidayRate"
  else kk

/-- Fields of `OtParams` that a token can assign. -/
inductive OtField where
  | hourly | weekday | rest | holiday | wr1 | wr2 | rr | hr
deriving DecidableEq, Repr

/-- Membership of the mapped key in the two recognized-field lists of
`parseOtArgs` (`["hourly","weekday","rest","holiday"]` and the rate list). -/
def keyField (key : JStr) : Option OtField :=
  if key = js "hourly" then some .hourly
  else if key = js "weekday" then some .weekday
  else if key = js "rest" then some .rest
  else if key = js "holiday" then some .holiday
  else if key = js "weekdayRate1" then some .wr1
  else if key = js "weekdayRate2" then some .wr2
  else if key = js "restRate" then some .rr
  else if key = js "holidayRate" then some .hr
  else none

/-- `params[key] = val` for a recognized field. -/
def setField (p : OtParams) : OtField → ℚ → OtParams
  | .hourly, v => { p with hourly := some v }
  | .weekday, v => { p with weekday := v }
  | .rest, v => { p with rest := v }
  | .holiday, v => { p with holiday := v }
  | .wr1, v => { p with weekdayRate1 := v }
  | .wr2, v => { p with weekdayRate2 := v }
  | .rr, v => { p with restRate := v }
  | .hr, v => { p with holidayRate := v }

/-- JavaScript `t.split("=")` destructured as `[rawK, rawV]`:
`none` when the token has no `=`; otherwise the text before the first `=`
and the text between the first and second `=`. -/
def splitEqKV (t : JStr) : Option (JStr × JStr) :=
  let k := t.takeWhile (fun c => !(c = '='))
  if k.length = t.length then none
  else some (k, (t.drop (k.length + 1)).takeWhile (fun c => !(c = '=')))

/-- The per-token body of the `tokens.forEach` loop in `parseOtArgs`:
skip tokens without `=` or with an empty key, map the trimmed key through
the alias table, coerce the value by deleting everything but digits and
dots, and assign only recognized fields with non-`NaN` values. -/
def applyToken (p : OtParams) (t : JStr) : OtParams :=
  match splitEqKV t with
  | none => p
  | some (rawK, rawV) =>
    if rawK = [] then p
    else
      match keyField (mapKeys (trimJ rawK)), jsParseFloat (rawV.filter isDigitOrDot) with
      | some f, some v => setField p f v
      | _, _ => p

/-- `text.replace(/^試算加班費/i, "")`. -/
def stripOtCmd (t : JStr) : JStr :=
  if startsWithJ t (js "試算加班費") then t.drop (js "試算加班費").length else t

/-- `parseOtArgs` (src/index.js lines 865-910). -/
def parseOtArgs (text : JStr) : OtParams :=
  (splitWs (trimJ (stripOtCmd text))).foldl applyToken defaultOtParams

/-- The `InvalidWage` message of `computeOtPay`. -/
def invalidWageMsg : JStr := js "請提供正確的時薪（例如：時薪=183）"

/-- `Math.max(0, x)`: the non-negativity clamp applied to each hour field. -/
def hourClamp (x : ℚ) : ℚ := max 0 x

/-- All three hour fields clamped, as `computeOtPay` does on entry. -/
def clampHours (p : OtParams) : OtParams :=
  { p with weekday := hourClamp p.weekday, rest := hourClamp p.rest,
           holiday := hourClamp p.holiday }

/-- `wk1 = Math.min(2, wk)`: first weekday overtime tier. -/
def weekdayTier1 (wk : ℚ) : ℚ := min 2 wk

/-- `wk2 = Math.max(0, Math.min(2, wk - wk1))`: second tier. -/
def weekdayTier2 (wk : ℚ) : ℚ := max 0 (min 2 (wk - weekdayTier1 wk))

/-- `wk3 = Math.max(0, wk - wk1 - wk2)`: hours beyond four. -/
def weekdayTier3 (wk : ℚ) : ℚ := max 0 (wk - weekdayTier1 wk - weekdayTier2 wk)

/-- Numeric result of `computeOtPay`: the category subtotals and the total,
from which the displayed message is formatted. -/
structure OtBreakdown where
  weekdayPay : ℚ
  restPay : ℚ
  holidayPay : ℚ
  total : ℚ
deriving DecidableEq, Repr

/-- `computeOtPay` (src/index.js lines 913-963): structured `InvalidWage`
failure when the wage is `NaN`/absent or not positive, otherwise the tiered
breakdown.  `!h || Number.isNaN(h) || h <= 0` is `hourly = none ∨ h ≤ 0`
under the `Option ℚ` model of the wage. -/
def computeOtPay (p : OtParams) : Except JStr OtBreakdown :=
  match p.hourly with
  | none => Except.error invalidWageMsg
  | some h =>
    if h ≤ 0 then Except.error invalidWageMsg
    else
      let wk := hourClamp p.weekday
      let rs := hourClamp p.rest
      let hd := hourClamp p.holiday
      let weekdayPay :=
        h * (weekdayTier1 wk * p.weekdayRate1 + weekdayTier2 wk * p.weekdayRate2 +
             weekdayTier3 wk * p.weekdayRate2)
      let restPay := h * (rs * p.restRate)
      let holidayPay := h * (hd * p.holidayRate)
      Except.ok ⟨weekdayPay, restPay, holidayPay, weekdayPay + restPay + holidayPay⟩

/-! ## Article index and keyword lookup (src/articles.js) -/

/-- Article record loaded from `articles.json`. -/
structure Article where
  no : Nat
  title : JStr
  summary : JStr
  keywords : List JStr
deriving DecidableEq, Repr

/-- `findArticleByNumber` (src/articles.js lines 28-33), with the numeric
parse already done: exact match on the unique `no` key. -/
def findArticleByNumber (articles : List Article) (n : Nat) : Option Article :=
  articles.find? (fun a => a.no = n)

/-- The per-record score of `findArticleByKeyword`: the count of the
record's keywords that, once normalized and non-empty, occur as substrings
of the normalized query. -/
def scoreKeywords (normalized : JStr) (kws : List JStr) : Nat :=
  kws.foldl
    (fun s kwRaw =>
      let kw := normalizeJ kwRaw
      if kw = [] then s else if containsSub normalized kw then s + 1 else s) 0

/-- Score of one article against the normalized query. -/
def scoreArticle (normalized : JStr) (a : Article) : Nat :=
  scoreKeywords normalized a.keywords

/-- The `best` / `bestScore` loop shared by the keyword lookups: update the
pair only on a strictly greater score, so ties keep the earlier record. -/
def pickBest (g : α → Nat) : List α → Option α × Nat → Option α × Nat
  | [], acc => acc
  | x :: xs, acc => pickBest g xs (if g x > acc.2 then (some x, g x) else acc)

/-- The final `if (!best || bestScore === 0) return null; return best;`
guard of the keyword lookups. -/
def bestGuard [DecidableEq α] (r : Option α × Nat) : Option α :=
  if r.1 = none ∨ r.2 = 0 then none else r.1

/-- `findArticleByKeyword` (src/articles.js lines 36-63). -/
def findArticleByKeyword (articles : List Article) (text : JStr) : Option Article :=
  if text = [] then none
  else bestGuard (pickBest (scoreArticle (normalizeJ text)) articles (none, 0))

/-- FAQ record. Modelled from the spec: `faqs.js` is not among the provided
sources; §3 of the spec gives the record shape (question text, answer text,
ordered keywords). -/
structure Faq where
  question : JStr
  answer : JStr
  keywords : List JStr
deriving DecidableEq, Repr

/-- Score of one FAQ record against the normalized query. -/
def scoreFaq (normalized : JStr) (f : Faq) : Nat :=
  scoreKeywords normalized f.keywords

/-- Modelled from the spec: `findBestFaq` lives in the missing `faqs.js`;
§4.3 of the spec states it is the identical scoring algorithm to the
article keyword lookup (substring counting over normalized keywords,
strictly-highest score wins, ties keep the first record, zero score or no
records yields none), applied to the FAQ record set. -/
def findBestFaq (faqs : List Faq) (text : JStr) : Option Faq :=
  if text = [] then none
  else bestGuard (pickBest (scoreFaq (normalizeJ text)) faqs (none, 0))

/-! ## Article-reference extraction (src/articles.js lines 66-94,
src/index.js lines 403-412) -/

/-- Half-width ASCII digit or full-width digit `０`-`９`:
the character class `[0-9０-９]`. -/
def isArtDigit (c : Char) : Bool :=
  (48 ≤ c.toNat && c.toNat ≤ 57) || (65296 ≤ c.toNat && c.toNat ≤ 65305)

/-- Digit value after the full-width-to-half-width normalization
(`charCodeAt - 65248`) done before `parseInt`. -/
def artDigitVal (c : Char) : Nat :=
  if 48 ≤ c.toNat && c.toNat ≤ 57 then c.toNat - 48 else c.toNat - 65296

/-- `parseInt` of a captured digit group (half- or full-width digits). -/
def artDigitsVal (l : JStr) : Nat := l.foldl (fun a c => a * 10 + artDigitVal c) 0

/-- Backtracking for a required `條` after a greedy `{1,3}` digit group:
try the candidate length, then shorter ones, as the regex engine does. -/
def tryTiao (r2 : JStr) : Nat → Option Nat
  | 0 => none
  | j + 1 =>
    match r2.drop (j + 1) with
    | '條' :: _ => some (artDigitsVal (r2.take (j + 1)))
    | _ => tryTiao r2 j

/-- Consume one optional `第` (the `第?` of the patterns). -/
def dropDi (r : JStr) : JStr :=
  if r.head? = some '第' then r.tail else r

/-- Match `([0-9０-９]{1,3})` then `條` (required when `reqTiao`, else
optional) at the head of `r2`: the digit group is greedy with at most 3
digits, backtracking only when `條` is required. -/
def matchDigitsCore (reqTiao : Bool) (r2 : JStr) : Option Nat :=
  if reqTiao then tryTiao r2 (min (r2.takeWhile isArtDigit).length 3)
  else if min (r2.takeWhile isArtDigit).length 3 = 0 then none
  else some (artDigitsVal (r2.take (min (r2.takeWhile isArtDigit).length 3)))

/-- Match one `extractArticleNumber` pattern at the head of `s`:
the literal `lit`, an optional `第` when `optDi`, a greedy 1-3 digit
capture, then `條` (required when `reqTiao`, else optional). -/
def matchPatAt (lit : JStr) (optDi reqTiao : Bool) (s : JStr) : Option Nat :=
  if startsWithJ s lit then
    matchDigitsCore reqTiao
      (if optDi then dropDi (s.drop lit.length) else s.drop lit.length)
  else none

/-- `s.match(re)`: scan left to right for the first position where the
pattern matches. -/
def searchPat (lit : JStr) (optDi reqTiao : Bool) : JStr → Option Nat
  | [] => matchPatAt lit optDi reqTiao []
  | c :: rest =>
    match matchPatAt lit optDi reqTiao (c :: rest) with
    | some n => some n
    | none => searchPat lit optDi reqTiao rest

/-- `extractArticleNumber` (src/articles.js lines 66-94): strip all
whitespace, then try the five patterns in order, returning the first
pattern's (leftmost) match. -/
def extractArticleNumber (text : JStr) : Option Nat :=
  let s := text.filter (fun c => !isWs c)
  match searchPat (js "勞動基準法") true false s with
  | some n => some n
  | none =>
  match searchPat (js "勞基法") true false s with
  | some n => some n
  | none =>
  match searchPat (js "勞動基準法") false false s with
  | some n => some n
  | none =>
  match searchPat (js "勞基法") false false s with
  | some n => some n
  | none => searchPat (js "第") false true s

/-- Backtracking for `([0-9]{1,3})\s*條` in `extractLawNumbers`:
candidate digit length, then any whitespace, then `條`; on success also
report how many characters were consumed. -/
def tryLawTiao (r1 : JStr) (w1 : Nat) : Nat → Option (Nat × Nat)
  | 0 => none
  | j + 1 =>
    let after := r1.drop (j + 1)
    let w2 := (after.takeWhile isWs).length
    match after.drop w2 with
    | '條' :: _ => some (artDigitsVal (r1.take (j + 1)), w1 + (j + 1) + w2 + 1)
    | _ => tryLawTiao r1 w1 j

/-- Match `\s*([0-9]{1,3})\s*條` directly after a `第`; returns the number
and the count of consumed characters. -/
def matchLawAfter (rest : JStr) : Option (Nat × Nat) :=
  let w1 := (rest.takeWhile isWs).length
  let r1 := rest.drop w1
  let ds := r1.takeWhile (fun c => 48 ≤ c.toNat && c.toNat ≤ 57)
  tryLawTiao r1 w1 (min ds.length 3)

/-- The global `re.exec` loop of `extractLawNumbers`, with explicit fuel
(every step consumes at least one character, so the string's length always
suffices): at each `第` try the rest of the pattern; on success continue
after the match, otherwise at the next character. -/
def scanLawGo : Nat → JStr → List Nat
  | 0, _ => []
  | _, [] => []
  | fuel + 1, c :: rest =>
    if c = '第' then
      match matchLawAfter rest with
      | some (n, used) => n :: scanLawGo fuel (rest.drop used)
      | none => scanLawGo fuel rest
    else scanLawGo fuel rest

/-- All `第N條` matches of the text, in scan order with multiplicity. -/
def scanLaw (text : JStr) : List Nat := scanLawGo text.length text

/-- `Set.prototype.add`: append only when absent, keeping insertion order. -/
def addDistinct (acc : List Nat) (n : Nat) : List Nat :=
  if n ∈ acc then acc else acc ++ [n]

/-- `extractLawNumbers` (src/index.js lines 403-412): all `第N條` matches
with `0 < n < 1000`, deduplicated in insertion order. -/
def extractLawNumbers (text : JStr) : List Nat :=
  ((scanLaw text).filter (fun n => decide (0 < n ∧ n < 1000))).foldl addDistinct []

/-! ## Reply-length guard and citation links (src/index.js lines 395-431) -/

/-- Decimal digits of a number, for URL / bullet formatting. -/
def natChars (n : Nat) : JStr := (Nat.repr n).data

/-- `lawUrl` (src/index.js lines 395-400). -/
def lawUrl (n : Nat) : JStr :=
  if n = 0 then js "https://law.moj.gov.tw/LawClass/LawAll.aspx?pcode=N0030001"
  else js "https://law.moj.gov.tw/LawClass/LawSingle.aspx?pcode=N0030001&flno=" ++ natChars n

/-- `appendLawLinks` (src/index.js lines 415-425): append a sorted bullet
list of citation links when the answer mentions any `第N條`. -/
def appendLawLinks (answer : JStr) : JStr :=
  let nums := extractLawNumbers answer
  if nums = [] then answer
  else
    answer ++ js "\n\n🔗 參考條文：\n" ++
      List.intercalate (js "\n")
        ((List.insertionSort (fun a b => a ≤ b) nums).map
          (fun n => js "• 第 " ++ natChars n ++ js " 條：" ++ lawUrl n))

/-- The truncation marker `"\n…（已截斷）"` of `ensureLineLength`. -/
def truncNotice : JStr := js "\n…（已截斷）"

/-- `ensureLineLength` (src/index.js lines 428-431). -/
def ensureLineLength (s : JStr) (limit : Nat) : JStr :=
  if limit < s.length then s.take limit ++ truncNotice else s

/-! ## External-answer gateway: retry and degradation
(src/index.js lines 986-1122) -/

deriving instance DecidableEq for Except

/-- One remote call's outcome, as classified by `openaiChatWithRetry`:
a completion whose first choice content may be missing/empty (`none`), or a
failure that is transient (timeout, connection reset, DNS failure, 5xx) or
not. -/
inductive CallOutcome where
  | success (content : Option JStr)
  | failure (transient : Bool)
deriving DecidableEq

/-- Observable trace of one `openaiChatWithRetry` invocation: the result
(`error b` keeps the transience of the final failure), the number of calls
issued, and the backoff delays computed between calls. -/
structure RetryTrace where
  result : Except Bool (Option JStr)
  calls : Nat
  delays : List Nat
deriving DecidableEq

/-- The retry loop of `openaiChatWithRetry` (src/index.js lines 986-1024).
`oracle` gives the outcome of the `base + attempt`-th remote call of the
logical request, `jitter attempt` the value of `Math.floor(Math.random() *
200)` drawn before the `attempt`-th delay, `fuel` the retries remaining
(`retries - attempt`).  Success returns; a non-transient failure or an
exhausted retry budget re-throws; otherwise the loop waits
`1000 * 2 ^ attempt + jitter` and retries. -/
def retryGo (oracle : Nat → CallOutcome) (jitter : Nat → Nat) (base : Nat) :
    Nat → Nat → RetryTrace
  | attempt, 0 =>
    match oracle (base + attempt) with
    | .success c => ⟨.ok c, attempt + 1, []⟩
    | .failure b => ⟨.error b, attempt + 1, []⟩
  | attempt, fuel + 1 =>
    match oracle (base + attempt) with
    | .success c => ⟨.ok c, attempt + 1, []⟩
    | .failure false => ⟨.error false, attempt + 1, []⟩
    | .failure true =>
      ⟨(retryGo oracle jitter base (attempt + 1) fuel).result,
       (retryGo oracle jitter base (attempt + 1) fuel).calls,
       (1000 * 2 ^ attempt + jitter attempt) ::
         (retryGo oracle jitter base (attempt + 1) fuel).delays⟩

/-- `openaiChatWithRetry` with a given retry budget, starting at global
call index `base`. -/
def openaiChatWithRetry (oracle : Nat → CallOutcome) (jitter : Nat → Nat)
    (base retries : Nat) : RetryTrace :=
  retryGo oracle jitter base 0 retries

/-- Requested answer mode of `askOpenAIForLaborHelp`. -/
inductive Mode where
  | concise
  | detailed
deriving DecidableEq, Repr

/-- `mode === "detailed"`. -/
def isDetailedMode : Mode → Bool
  | .detailed => true
  | .concise => false

/-- Label of the first attempt chain. -/
def tier1Label (m : Mode) : String :=
  if isDetailedMode m then "detailed#1" else "concise#1"

/-- `choice ? appendLawLinks(choice.trim()) : null`: a missing or empty
content is falsy and yields `null`. -/
def postProcess (c : Option JStr) : Option JStr :=
  match c with
  | none => none
  | some s => if s = [] then none else some (appendLawLinks (trimJ s))

/-- `askOpenAIForLaborHelp` (src/index.js lines 1027-1122),
abstracted over the remote oracle: the first chain uses the requested mode
(retries 1); on exhaustion a detailed request retries once more as a
reduced-token detailed chain (retries 1); any remaining exhaustion falls
to a single concise chain (retries 1); if that too exhausts, the result is
`none`.  The returned list records the tier labels and traces in order. -/
def askOpenAIForLaborHelp (hasClient : Bool) (oracle : Nat → CallOutcome)
    (jitter : Nat → Nat) (mode : Mode) :
    Option JStr × List (String × RetryTrace) :=
  if hasClient = false then (none, [])
  else
    let t1 := openaiChatWithRetry oracle jitter 0 1
    match t1.result with
    | .ok c => (postProcess c, [(tier1Label mode, t1)])
    | .error _ =>
      if isDetailedMode mode then
        let t2 := openaiChatWithRetry oracle jitter t1.calls 1
        match t2.result with
        | .ok c => (postProcess c, [(tier1Label mode, t1), ("detailed#2", t2)])
        | .error _ =>
          let t3 := openaiChatWithRetry oracle jitter (t1.calls + t2.calls) 1
          match t3.result with
          | .ok c =>
            (postProcess c,
             [(tier1Label mode, t1), ("detailed#2", t2), ("concise#fallback", t3)])
          | .error _ =>
            (none, [(tier1Label mode, t1), ("detailed#2", t2), ("concise#fallback", t3)])
      else
        let t3 := openaiChatWithRetry oracle jitter t1.calls 1
        match t3.result with
        | .ok c => (postProcess c, [(tier1Label mode, t1), ("concise#fallback", t3)])
        | .error _ => (none, [(tier1Label mode, t1), ("concise#fallback", t3)])

/-! ## Webhook text-message dispatch (src/index.js lines 1177-1481) -/

/-- The reply produced for one text message, tagged by the branch of the
handler that produced it.  Presentation-only message bodies are abstracted
to the branch tag plus the data they are built from. -/
inductive Reply where
  | aiEmptyPrompt
  | aiNoKey (question : JStr)
  | aiAnswered (detailed : Bool) (body : JStr)
  | aiFailed (question : JStr)
  | otFlex
  | otHelp
  | otComputed (r : Except JStr OtBreakdown)
  | menu
  | overtimeExamples
  | annualLeaveExamples
  | resignExamples
  | articleLocal (no : Nat) (a : Article)
  | articleAi (no : Nat) (body : JStr)
  | articleNotFound (no : Nat)
  | faqHit (f : Faq)
  | articleKeywordHit (a : Article)
  | aiFallbackAnswered (body : JStr)
  | fallbackGuidance
deriving DecidableEq

/-- The synthesized "explain article N" prompt of the article branch. -/
def articleProbe (n : Nat) : JStr :=
  js "請用簡短白話說明台灣《勞動基準法》第 " ++ natChars n ++
    js " 條的大意與保護重點，約 3~5 句即可。"

/-- The `ai/` / `ai+` branch (src/index.js lines 1186-1268): strip the
3-character prefix, detect a leading `詳細` / `進階` marker, re-trim, and
answer through the gateway oracle in the indicated mode. -/
def aiBranch (aiAvail : Bool) (ai : Mode → JStr → Option JStr) (trimmed : JStr) : Reply :=
  let raw := trimJ (trimmed.drop 3)
  let isDetailed := startsWithJ raw (js "詳細") || startsWithJ raw (js "進階")
  let q := if isDetailed then trimJ (raw.drop 2) else raw
  if q = [] then .aiEmptyPrompt
  else if aiAvail = false then .aiNoKey q
  else
    match ai (if isDetailed then Mode.detailed else Mode.concise) q with
    | some ans => .aiAnswered isDetailed ans
    | none => .aiFailed q

/-- JavaScript truthiness of the extracted article number: `if (articleNo)`
treats both `null` and `0` as no match. -/
def jsTruthyNum (o : Option Nat) : Option Nat :=
  match o with
  | some 0 => none
  | x => x

/-- The FAQ / article-keyword / AI-fallback tail of the chain
(src/index.js lines 1424-1481). -/
def faqChain (arts : List Article) (faqs : List Faq)
    (ai : Mode → JStr → Option JStr) (userText : JStr) : Reply :=
  match findBestFaq faqs userText with
  | some f => .faqHit f
  | none =>
    match findArticleByKeyword arts userText with
    | some a => .articleKeywordHit a
    | none =>
      match ai Mode.concise userText with
      | some b => .aiFallbackAnswered b
      | none => .fallbackGuidance

/-- The ordered branch chain of the webhook handler for one text message
(src/index.js lines 1177-1481), with `normalized = normalizeJ userText` and
`trimmed = trimJ userText` passed in as the handler's local constants.
External effects (LINE replies, the OpenAI client) are abstracted into the
returned `Reply` tag and the `ai` oracle. -/
def handleTextCore (arts : List Article) (faqs : List Faq) (aiAvail : Bool)
    (ai : Mode → JStr → Option JStr) (userText normalized trimmed : JStr) : Reply :=
  if (startsWithJ (trimmed.map Char.toLower) (js "ai/") ||
      startsWithJ (trimmed.map Char.toLower) (js "ai+")) = true then
    aiBranch aiAvail ai trimmed
  else if normalized = js "試算加班費" then .otFlex
  else if (startsWithJ normalized (js "試算加班費") &&
           containsSub normalized (js "說明")) = true then .otHelp
  else if startsWithJ normalized (js "試算加班費 ") = true then
    .otComputed (computeOtPay (parseOtArgs userText))
  else if normalized = js "再試一筆" then .otFlex
  else if normalized = js "功能" ∨ normalized = js "help" ∨ normalized = js "使用說明" then
    .menu
  else if normalized = js "加班相關" then .overtimeExamples
  else if normalized = js "特休相關" ∨ normalized = js "休假相關" then .annualLeaveExamples
  else if normalized = js "離職相關" ∨ normalized = js "資遣相關" ∨
          normalized = js "離職資遣相關" then .resignExamples
  else
    match jsTruthyNum (extractArticleNumber userText) with
    | some n =>
      match findArticleByNumber arts n with
      | some a => .articleLocal n a
      | none =>
        match ai Mode.concise (articleProbe n) with
        | some ans => .articleAi n ans
        | none => .articleNotFound n
    | none => faqChain arts faqs ai userText

/-- Dispatch of one inbound text message. -/
def handleText (arts : List Article) (faqs : List Faq) (aiAvail : Bool)
    (ai : Mode → JStr → Option JStr) (userText : JStr) : Reply :=
  handleTextCore arts faqs aiAvail ai userText (normalizeJ userText) (trimJ userText)

/-! # Theorems -/

/-! ## Weekday tier arithmetic -/

theorem tiers_low {wk : ℚ} (_h0 : 0 ≤ wk) (h2 : wk ≤ 2) :
    weekdayTier1 wk = wk ∧ weekdayTier2 wk = 0 ∧ weekdayTier3 wk = 0 := by
  have t1 : weekdayTier1 wk = wk := min_eq_right h2
  have t2 : weekdayTier2 wk = 0 := by
    rw [weekdayTier2, t1, sub_self]
    norm_num
  refine ⟨t1, t2, ?_⟩
  rw [weekdayTier3, t1, t2, sub_self, sub_zero]
  norm_num

theorem tiers_mid {wk : ℚ} (h2 : 2 < wk) (h4 : wk ≤ 4) :
    weekdayTier1 wk = 2 ∧ weekdayTier2 wk = wk - 2 ∧ weekdayTier3 wk = 0 := by
  have t1 : weekdayTier1 wk = 2 := min_eq_left (by linarith)
  have t2 : weekdayTier2 wk = wk - 2 := by
    rw [weekdayTier2, t1, min_eq_right (by linarith), max_eq_right (by linarith)]
  refine ⟨t1, t2, ?_⟩
  rw [weekdayTier3, t1, t2]
  rw [show wk - 2 - (wk - 2) = 0 by ring]
  norm_num

theorem tiers_high {wk : ℚ} (h4 : 4 < wk) :
    weekdayTier1 wk = 2 ∧ weekdayTier2 wk = 2 ∧ weekdayTier3 wk = wk - 4 := by
  have t1 : weekdayTier1 wk = 2 := min_eq_left (by linarith)
  have t2 : weekdayTier2 wk = 2 := by
    rw [weekdayTier2, t1, min_eq_left (by linarith), max_eq_right (by linarith)]
  refine ⟨t1, t2, ?_⟩
  rw [weekdayTier3, t1, t2]
  rw [max_eq_right (by linarith)]
  ring

/-- C1: for every parameter set with a positive wage and non-negative hours,
`computeOtPay` bills weekday overtime in tiers — up to 2 hours at
`weekdayRate1`; hours 3-4 at `weekdayRate2`; hours beyond 4 also at
`weekdayRate2` (no third rate) — bills rest-day and holiday hours in full at
their flat rates, and totals the three category subtotals. -/
theorem c1_computeOtPay_tiers (p : OtParams) (w : ℚ)
    (hw : p.hourly = some w) (hpos : 0 < w) (hwd : 0 ≤ p.weekday)
    (hrest : 0 ≤ p.rest) (hhol : 0 ≤ p.holiday) :
    ∃ r : OtBreakdown, computeOtPay p = Except.ok r ∧
      (p.weekday ≤ 2 → r.weekdayPay = w * p.weekday * p.weekdayRate1) ∧
      (2 < p.weekday → p.weekday ≤ 4 →
        r.weekdayPay = w * 2 * p.weekdayRate1 + w * (p.weekday - 2) * p.weekdayRate2) ∧
      (4 < p.weekday →
        r.weekdayPay = w * 2 * p.weekdayRate1 + w * 2 * p.weekdayRate2 +
          w * (p.weekday - 4) * p.weekdayRate2) ∧
      r.restPay = w * p.rest * p.restRate ∧
      r.holidayPay = w * p.holiday * p.holidayRate ∧
      r.total = r.weekdayPay + r.restPay + r.holidayPay := by
  have hcw : hourClamp p.weekday = p.weekday := max_eq_right hwd
  have hcr : hourClamp p.rest = p.rest := max_eq_right hrest
  have hch : hourClamp p.holiday = p.holiday := max_eq_right hhol
  simp only [computeOtPay, hw]
  rw [if_neg (not_le.mpr hpos)]
  refine ⟨_, rfl, ?_, ?_, ?_, ?_, ?_, rfl⟩
  · intro h2
    obtain ⟨t1, t2, t3⟩ := tiers_low hwd h2
    simp only [hcw, t1, t2, t3]
    ring
  · intro h2 h4
    obtain ⟨t1, t2, t3⟩ := tiers_mid h2 h4
    simp only [hcw, t1, t2, t3]
    ring
  · intro h4
    obtain ⟨t1, t2, t3⟩ := tiers_high h4
    simp only [hcw, t1, t2, t3]
    ring
  · simp only [hcr]
    ring
  · simp only [hch]
    ring

/-- Closed witness for C1 at wage 183 and 3 weekday, 1 rest-day,
1 holiday hours. -/
theorem c1_computeOtPay_tiers_witness :
    ∃ r : OtBreakdown,
      computeOtPay { defaultOtParams with
        hourly := some 183, weekday := 3, rest := 1, holiday := 1 } = Except.ok r ∧
      ((3 : ℚ) ≤ 2 → r.weekdayPay = 183 * 3 * (133 / 100)) ∧
      ((2 : ℚ) < 3 → (3 : ℚ) ≤ 4 →
        r.weekdayPay = 183 * 2 * (133 / 100) + 183 * ((3 : ℚ) - 2) * (166 / 100)) ∧
      ((4 : ℚ) < 3 →
        r.weekdayPay = 183 * 2 * (133 / 100) + 183 * 2 * (166 / 100) +
          183 * ((3 : ℚ) - 4) * (166 / 100)) ∧
      r.restPay = 183 * 1 * 2 ∧
      r.holidayPay = 183 * 1 * 2 ∧
      r.total = r.weekdayPay + r.restPay + r.holidayPay := by
  have h := c1_computeOtPay_tiers
    { defaultOtParams with
      hourly := some 183, weekday := 3, rest := 1, holiday := 1 }
    183 rfl (by norm_num) (by norm_num) (by norm_num) (by norm_num)
  simpa [defaultOtParams] using h

/-! ## C2: structured InvalidWage failure -/

/-- C2: `computeOtPay` fails with the `InvalidWage` structured failure
exactly when the wage is absent/`NaN` (`none`) or not strictly positive;
any positive wage succeeds; the entry clamp of the hour fields makes the
result equal on clamped parameters; and the wage-0 / `NaN`-wage parameter
sets both fail. -/
theorem c2_computeOtPay_invalidWage :
    (∀ p : OtParams,
        computeOtPay p = Except.error invalidWageMsg ↔
          p.hourly = none ∨ ∃ h : ℚ, p.hourly = some h ∧ h ≤ 0) ∧
    (∀ (p : OtParams) (h : ℚ), p.hourly = some h → 0 < h →
        ∃ r, computeOtPay p = Except.ok r) ∧
    (∀ p : OtParams, computeOtPay p = computeOtPay (clampHours p)) ∧
    computeOtPay { defaultOtParams with hourly := some 0 } =
      Except.error invalidWageMsg ∧
    computeOtPay (parseOtArgs (js "試算加班費 時薪=abc 平日=2")) =
      Except.error invalidWageMsg := by
  refine ⟨?_, ?_, ?_, by decide, by decide⟩
  · intro p
    match hp : p.hourly with
    | none => simp [computeOtPay, hp]
    | some h =>
      by_cases hle : h ≤ 0
      · simp only [computeOtPay, hp, if_pos hle]
        simp [hle]
      · simp only [computeOtPay, hp, if_neg hle]
        constructor
        · intro hcontra
          exact absurd hcontra (by simp)
        · rintro (hcontra | ⟨h2, hh2, hle2⟩)
          · exact absurd hcontra (by simp)
          · rw [Option.some_inj] at hh2
            exact absurd (hh2 ▸ hle2) hle
  · intro p h hp hpos
    simp only [computeOtPay, hp, if_neg (not_le.mpr hpos)]
    exact ⟨_, rfl⟩
  · intro p
    have hmax : ∀ x : ℚ, hourClamp (hourClamp x) = hourClamp x := fun x =>
      max_eq_right (le_max_left 0 x)
    simp only [computeOtPay, clampHours, hmax]

/-- Closed witness for C2: a positive-wage parameter set succeeds. -/
theorem c2_computeOtPay_invalidWage_witness :
    ∃ r, computeOtPay { defaultOtParams with
      hourly := some 183, weekday := 2, rest := 3 } = Except.ok r := by
  exact c2_computeOtPay_invalidWage.2.1
    { defaultOtParams with hourly := some 183, weekday := 2, rest := 3 }
    183 rfl (by norm_num)

/-! ## C10: parsed values are never negative -/

/-- All numeric fields of a parameter record are non-negative (the wage,
when present at all). -/
def NonnegParams (p : OtParams) : Prop :=
  0 ≤ p.weekday ∧ 0 ≤ p.rest ∧ 0 ≤ p.holiday ∧
  0 ≤ p.weekdayRate1 ∧ 0 ≤ p.weekdayRate2 ∧ 0 ≤ p.restRate ∧ 0 ≤ p.holidayRate ∧
  ∀ h : ℚ, p.hourly = some h → 0 ≤ h

theorem jsParseFloat_nonneg {s : JStr} {v : ℚ} (h : jsParseFloat s = some v) :
    0 ≤ v := by
  rw [jsParseFloat] at h
  split at h
  · split at h
    · exact absurd h (by simp)
    · rw [Option.some_inj] at h
      subst h
      positivity
  · split at h
    · exact absurd h (by simp)
    · rw [Option.some_inj] at h
      subst h
      positivity

theorem setField_nonneg {p : OtParams} {v : ℚ} (hp : NonnegParams p) (hv : 0 ≤ v) :
    ∀ f, NonnegParams (setField p f v) := by
  obtain ⟨h1, h2, h3, h4, h5, h6, h7, h8⟩ := hp
  intro f
  cases f
  case hourly =>
    refine ⟨h1, h2, h3, h4, h5, h6, h7, ?_⟩
    intro h heq
    have hv2 : v = h := by
      have : some v = some h := heq
      rwa [Option.some_inj] at this
    exact hv2 ▸ hv
  case weekday => exact ⟨hv, h2, h3, h4, h5, h6, h7, h8⟩
  case rest => exact ⟨h1, hv, h3, h4, h5, h6, h7, h8⟩
  case holiday => exact ⟨h1, h2, hv, h4, h5, h6, h7, h8⟩
  case wr1 => exact ⟨h1, h2, h3, hv, h5, h6, h7, h8⟩
  case wr2 => exact ⟨h1, h2, h3, h4, hv, h6, h7, h8⟩
  case rr => exact ⟨h1, h2, h3, h4, h5, hv, h7, h8⟩
  case hr => exact ⟨h1, h2, h3, h4, h5, h6, hv, h8⟩

theorem applyToken_nonneg {p : OtParams} (hp : NonnegParams p) (t : JStr) :
    NonnegParams (applyToken p t) := by
  rw [applyToken]
  split
  · exact hp
  · split
    · exact hp
    · split
      · rename_i f v _ hpf
        exact setField_nonneg hp (jsParseFloat_nonneg hpf) f
      · exact hp

theorem foldl_applyToken_nonneg :
    ∀ (l : List JStr) (p : OtParams), NonnegParams p →
      NonnegParams (l.foldl applyToken p)
  | [], _, hp => hp
  | t :: l, p, hp => foldl_applyToken_nonneg l (applyToken p t) (applyToken_nonneg hp t)

theorem defaultOtParams_nonneg : NonnegParams defaultOtParams := by
  refine ⟨by norm_num [defaultOtParams], by norm_num [defaultOtParams],
          by norm_num [defaultOtParams], by norm_num [defaultOtParams],
          by norm_num [defaultOtParams], by norm_num [defaultOtParams],
          by norm_num [defaultOtParams], ?_⟩
  intro h heq
  exact absurd heq (by simp [defaultOtParams])

/-- C10: every field that `parseOtArgs` assigns is non-negative — the value
coercion deletes every character but digits and the dot, so no minus sign
survives — hence `computeOtPay`'s clamp never changes a parsed record. -/
theorem c10_parseOtArgs_nonneg (text : JStr) :
    0 ≤ (parseOtArgs text).weekday ∧ 0 ≤ (parseOtArgs text).rest ∧
    0 ≤ (parseOtArgs text).holiday ∧ 0 ≤ (parseOtArgs text).weekdayRate1 ∧
    0 ≤ (parseOtArgs text).weekdayRate2 ∧ 0 ≤ (parseOtArgs text).restRate ∧
    0 ≤ (parseOtArgs text).holidayRate ∧
    (∀ h : ℚ, (parseOtArgs text).hourly = some h → 0 ≤ h) ∧
    clampHours (parseOtArgs text) = parseOtArgs text := by
  have hn : NonnegParams (parseOtArgs text) :=
    foldl_applyToken_nonneg _ _ defaultOtParams_nonneg
  obtain ⟨h1, h2, h3, h4, h5, h6, h7, h8⟩ := hn
  refine ⟨h1, h2, h3, h4, h5, h6, h7, h8, ?_⟩
  have e1 : hourClamp (parseOtArgs text).weekday = (parseOtArgs text).weekday :=
    max_eq_right h1
  have e2 : hourClamp (parseOtArgs text).rest = (parseOtArgs text).rest :=
    max_eq_right h2
  have e3 : hourClamp (parseOtArgs text).holiday = (parseOtArgs text).holiday :=
    max_eq_right h3
  rw [clampHours, e1, e2, e3]

/-- Closed witness for C10 at a concrete command. -/
theorem c10_parseOtArgs_nonneg_witness :
    0 ≤ (parseOtArgs (js "試算加班費 時薪=183 平日=2")).weekday ∧
    (0 : ℚ) ≤ 183 ∧
    clampHours (parseOtArgs (js "試算加班費 時薪=183 平日=2")) =
      parseOtArgs (js "試算加班費 時薪=183 平日=2") := by
  have h := c10_parseOtArgs_nonneg (js "試算加班費 時薪=183 平日=2")
  exact ⟨h.1, h.2.2.2.2.2.2.2.1 183 (by decide), h.2.2.2.2.2.2.2.2⟩

/-! ## C6: the calculator argument grammar and its alias table -/

unseal Rat.add Rat.mul Rat.inv Rat.sub in
/-- Counterexample to C6 as stated: the Chinese rate-override key
`平日倍數1` does not resolve to the `weekdayRate1` field — it contains the
hour alias `平日`, which an earlier `mapKeys` rule matches first, so the
token `平日倍數1=1.5` sets the weekday-hours field instead and leaves the
rate at its default. -/
theorem c6_rate_alias_counterexample :
    (parseOtArgs (js "試算加班費 時薪=100 平日倍數1=1.5")).weekdayRate1 = 133 / 100 ∧
    ¬ (parseOtArgs (js "試算加班費 時薪=100 平日倍數1=1.5")).weekdayRate1 = 3 / 2 ∧
    (parseOtArgs (js "試算加班費 時薪=100 平日倍數1=1.5")).weekday = 3 / 2 := by
  refine ⟨by decide, by decide, by decide⟩

unseal Rat.add Rat.mul Rat.inv Rat.sub in
/-- C6 (amended): `parseOtArgs` strips the command head, splits on
whitespace into `key=value` tokens, maps keys case-insensitively through
the alias table (wage aliases to the wage field, hour aliases to the hour
fields, the English rate aliases `weekdayrate1`/`wkr1`, `weekdayrate2`/
`wkr2`, `restrate`, `holidayrate` to their rate fields), coerces values by
keeping only digits and the decimal point, and silently ignores
unrecognized or malformed tokens; the Chinese rate keys 平日倍數1,
平日倍數2, 休息日倍數, 假日倍數, however, each contain an hour alias
(平日, 休息日, 假日) that an earlier rule matches first, so they assign the
corresponding hour field, not the rate field. -/
theorem c6_parseOtArgs_aliases :
    parseOtArgs (js "試算加班費 時薪=183 平日=2 休息日=3")
      = { defaultOtParams with hourly := some 183, weekday := 2, rest := 3 } ∧
    parseOtArgs (js "試算加班費 WAGE=100")
      = { defaultOtParams with hourly := some 100 } ∧
    parseOtArgs (js "試算加班費 hourly-wage=88.5")
      = { defaultOtParams with hourly := some (177 / 2) } ∧
    parseOtArgs (js "試算加班費 假日=1 國定假日=2")
      = { defaultOtParams with holiday := 2 } ∧
    parseOtArgs (js "試算加班費 wkr1=1.5 weekdayrate2=1.7 restrate=2.5 holidayrate=3")
      = { defaultOtParams with
          weekdayRate1 := 3 / 2, weekdayRate2 := 17 / 10,
          restRate := 5 / 2, holidayRate := 3 } ∧
    parseOtArgs (js "試算加班費 平日倍數1=1.5 平日倍數2=1.7 休息日倍數=2.5 假日倍數=3")
      = { defaultOtParams with weekday := 17 / 10, rest := 5 / 2, holiday := 3 } ∧
    parseOtArgs (js "試算加班費 foo=12 bar baz= 時薪=abc") = defaultOtParams := by
  refine ⟨by decide, by decide, by decide, by decide, by decide, by decide, by decide⟩

/-! ## C9: outgoing reply length guard -/

/-- C9: a body at or under the 4500-unit limit passes through unchanged;
a longer body is cut to the limit with the truncation marker appended, so
the result ends in the marker rather than being silently dropped. -/
theorem c9_ensureLineLength (s : JStr) :
    (s.length ≤ 4500 → ensureLineLength s 4500 = s) ∧
    (4500 < s.length →
      ensureLineLength s 4500 = s.take 4500 ++ truncNotice ∧
      ∃ pre, ensureLineLength s 4500 = pre ++ truncNotice ∧ pre = s.take 4500) := by
  constructor
  · intro h
    rw [ensureLineLength, if_neg (not_lt.mpr h)]
  · intro h
    rw [ensureLineLength, if_pos h]
    exact ⟨rfl, s.take 4500, rfl, rfl⟩

/-- Closed witness for C9: a 4501-unit body is truncated with the marker, a
300-unit body passes unchanged. -/
theorem c9_ensureLineLength_witness :
    ensureLineLength (List.replicate 4501 'x') 4500 =
      (List.replicate 4501 'x' : JStr).take 4500 ++ truncNotice ∧
    ensureLineLength (List.replicate 300 'y') 4500 = List.replicate 300 'y' := by
  constructor
  · exact ((c9_ensureLineLength (List.replicate 4501 'x')).2
      (by rw [List.length_replicate]; omega)).1
  · exact (c9_ensureLineLength (List.replicate 300 'y')).1
      (by rw [List.length_replicate]; omega)

/-! ## C5: keyword lookup as a stable argmax -/

theorem pickBest_snd_le (g : α → Nat) (l : List α) :
    ∀ acc : Option α × Nat, acc.2 ≤ (pickBest g l acc).2 := by
  induction l with
  | nil => intro acc; exact le_refl _
  | cons x xs ih =>
    intro acc
    rw [pickBest]
    by_cases hgx : g x > acc.2
    · rw [if_pos hgx]
      exact le_trans (le_of_lt hgx) (ih (some x, g x))
    · rw [if_neg hgx]
      exact ih acc

theorem pickBest_mem_le (g : α → Nat) (l : List α) :
    ∀ (acc : Option α × Nat) (y : α), y ∈ l → g y ≤ (pickBest g l acc).2 := by
  induction l with
  | nil => intro acc y hy; cases hy
  | cons x xs ih =>
    intro acc y hy
    rw [pickBest]
    rcases List.mem_cons.mp hy with h | h
    · by_cases hgx : g x > acc.2
      · rw [if_pos hgx]
        have := pickBest_snd_le g xs (some x, g x)
        exact h ▸ this
      · rw [if_neg hgx]
        have h1 : g y ≤ acc.2 := h ▸ not_lt.mp hgx
        exact le_trans h1 (pickBest_snd_le g xs acc)
    · by_cases hgx : g x > acc.2
      · rw [if_pos hgx]; exact ih _ y h
      · rw [if_neg hgx]; exact ih _ y h

theorem pickBest_cases (g : α → Nat) (l : List α) :
    ∀ acc : Option α × Nat,
      pickBest g l acc = acc ∨
      ∃ pre x post, l = pre ++ x :: post ∧ pickBest g l acc = (some x, g x) ∧
        acc.2 < g x ∧ (∀ y ∈ pre, g y < g x) ∧ (∀ y ∈ post, g y ≤ g x) := by
  induction l with
  | nil => intro acc; exact Or.inl rfl
  | cons x xs ih =>
    intro acc
    rw [pickBest]
    by_cases hgx : g x > acc.2
    · rw [if_pos hgx]
      rcases ih (some x, g x) with heq | ⟨pre, z, post, hl, hres, hlt, hpre, hpost⟩
      · refine Or.inr ⟨[], x, xs, rfl, heq, hgx, ?_, ?_⟩
        · intro y hy; cases hy
        · intro y hy
          have h1 := pickBest_mem_le g xs (some x, g x) y hy
          rw [heq] at h1
          exact h1
      · refine Or.inr ⟨x :: pre, z, post, by rw [hl, List.cons_append], hres,
          lt_trans hgx hlt, ?_, hpost⟩
        intro y hy
        rcases List.mem_cons.mp hy with h | h
        · exact h ▸ hlt
        · exact hpre y h
    · rw [if_neg hgx]
      rcases ih acc with heq | ⟨pre, z, post, hl, hres, hlt, hpre, hpost⟩
      · exact Or.inl heq
      · refine Or.inr ⟨x :: pre, z, post, by rw [hl, List.cons_append], hres, hlt, ?_,
          hpost⟩
        intro y hy
        rcases List.mem_cons.mp hy with h | h
        · exact h ▸ lt_of_le_of_lt (not_lt.mp hgx) hlt
        · exact hpre y h

/-- Common specification of the `best`/`bestScore` selection with the
source's final `!best || bestScore === 0` guard. -/
theorem bestScore_spec [DecidableEq α] (g : α → Nat) (l : List α) :
    (bestGuard (pickBest g l (none, 0)) = none ↔ ∀ a ∈ l, g a = 0) ∧
    ∀ a, bestGuard (pickBest g l (none, 0)) = some a →
      0 < g a ∧ (∀ b ∈ l, g b ≤ g a) ∧
      ∃ pre post, l = pre ++ a :: post ∧ ∀ y ∈ pre, g y < g a := by
  rcases pickBest_cases g l (none, 0) with heq | ⟨pre, z, post, hl, hres, hlt, hpre, hpost⟩
  · rw [heq]
    constructor
    · constructor
      · intro _ a ha
        have h1 := pickBest_mem_le g l (none, 0) a ha
        rw [heq] at h1
        omega
      · intro _
        rw [bestGuard, if_pos (Or.inl rfl)]
    · intro a ha
      rw [bestGuard, if_pos (Or.inl rfl)] at ha
      cases ha
  · rw [hres]
    have hz : (0 : Nat) < g z := hlt
    have hcond : ¬(((some z, g z) : Option α × Nat).1 = none ∨
        ((some z, g z) : Option α × Nat).2 = 0) := by
      rintro (h | h)
      · cases h
      · exact absurd h (by omega)
    rw [bestGuard, if_neg hcond]
    constructor
    · constructor
      · intro h; cases h
      · intro hall
        have hz0 : g z = 0 := hall z (by
          rw [hl]
          exact List.mem_append_right _ (List.mem_cons_self z post))
        omega
    · intro a ha
      rw [Option.some_inj] at ha
      subst ha
      refine ⟨hz, ?_, pre, post, hl, hpre⟩
      intro b hb
      have h1 := pickBest_mem_le g l (none, 0) b hb
      rw [hres] at h1
      exact h1

/-- C5: both keyword lookups return `none` exactly when the query is empty
or every record scores zero; a returned record has a positive score that no
record exceeds, and every record placed before it in insertion order scores
strictly less (ties keep the first record).  Determinism is immediate: the
lookups are pure functions of the record list and query. -/
theorem c5_keyword_lookup (arts : List Article) (faqs : List Faq) (t : JStr) :
    (findArticleByKeyword arts t = none ↔
       t = [] ∨ ∀ a ∈ arts, scoreArticle (normalizeJ t) a = 0) ∧
    (∀ a, findArticleByKeyword arts t = some a →
       0 < scoreArticle (normalizeJ t) a ∧
       (∀ b ∈ arts, scoreArticle (normalizeJ t) b ≤ scoreArticle (normalizeJ t) a) ∧
       ∃ pre post, arts = pre ++ a :: post ∧
         ∀ y ∈ pre, scoreArticle (normalizeJ t) y < scoreArticle (normalizeJ t) a) ∧
    (findBestFaq faqs t = none ↔
       t = [] ∨ ∀ f ∈ faqs, scoreFaq (normalizeJ t) f = 0) ∧
    (∀ f, findBestFaq faqs t = some f →
       0 < scoreFaq (normalizeJ t) f ∧
       (∀ b ∈ faqs, scoreFaq (normalizeJ t) b ≤ scoreFaq (normalizeJ t) f) ∧
       ∃ pre post, faqs = pre ++ f :: post ∧
         ∀ y ∈ pre, scoreFaq (normalizeJ t) y < scoreFaq (normalizeJ t) f) := by
  by_cases ht : t = []
  · refine ⟨?_, ?_, ?_, ?_⟩
    · rw [findArticleByKeyword, if_pos ht]
      simp [ht]
    · intro a ha
      rw [findArticleByKeyword, if_pos ht] at ha
      cases ha
    · rw [findBestFaq, if_pos ht]
      simp [ht]
    · intro f hf
      rw [findBestFaq, if_pos ht] at hf
      cases hf
  · have hart := bestScore_spec (scoreArticle (normalizeJ t)) arts
    have hfaq := bestScore_spec (scoreFaq (normalizeJ t)) faqs
    refine ⟨?_, ?_, ?_, ?_⟩
    · rw [findArticleByKeyword, if_neg ht]
      rw [hart.1]
      constructor
      · exact Or.inr
      · rintro (h | h)
        · exact absurd h ht
        · exact h
    · intro a ha
      rw [findArticleByKeyword, if_neg ht] at ha
      exact hart.2 a ha
    · rw [findBestFaq, if_neg ht]
      rw [hfaq.1]
      constructor
      · exact Or.inr
      · rintro (h | h)
        · exact absurd h ht
        · exact h
    · intro f hf
      rw [findBestFaq, if_neg ht] at hf
      exact hfaq.2 f hf

/-- Closed witness for C5: on a two-article index the query matching only
the second record returns it, with the guarantees instantiated. -/
theorem c5_keyword_lookup_witness :
    0 < scoreArticle (normalizeJ (js "特休沒休完"))
        ⟨38, [], [], [js "特休"]⟩ ∧
    (∀ b ∈ [(⟨21, [], [], [js "工資"]⟩ : Article), ⟨38, [], [], [js "特休"]⟩],
       scoreArticle (normalizeJ (js "特休沒休完")) b ≤
         scoreArticle (normalizeJ (js "特休沒休完")) ⟨38, [], [], [js "特休"]⟩) ∧
    findArticleByKeyword [⟨21, [], [], [js "工資"]⟩, ⟨38, [], [], [js "特休"]⟩]
      (js "特休沒休完") = some ⟨38, [], [], [js "特休"]⟩ := by
  have h := (c5_keyword_lookup
    [⟨21, [], [], [js "工資"]⟩, ⟨38, [], [], [js "特休"]⟩] [] (js "特休沒休完")).2.1
    ⟨38, [], [], [js "特休"]⟩ (by decide)
  exact ⟨h.1, h.2.1, by decide⟩

/-! ## C7: single article-reference extraction -/

theorem takeWhile_nil_of_all_false {p : Char → Bool} {l : JStr}
    (h : ∀ c ∈ l, p c = false) : l.takeWhile p = [] := by
  cases l with
  | nil => rfl
  | cons c t =>
    simp [List.takeWhile_cons, h c (List.mem_cons_self c t)]

theorem dropDi_subset {r : JStr} : ∀ c ∈ dropDi r, c ∈ r := by
  rw [dropDi]
  split
  · intro c hc
    exact List.mem_of_mem_tail hc
  · intro c hc
    exact hc

theorem matchDigitsCore_none {reqTiao : Bool} {r2 : JStr}
    (h : ∀ c ∈ r2, isArtDigit c = false) : matchDigitsCore reqTiao r2 = none := by
  rw [matchDigitsCore, takeWhile_nil_of_all_false h]
  cases reqTiao <;> rfl

theorem matchPatAt_none {lit : JStr} {optDi reqTiao : Bool} {s : JStr}
    (h : ∀ c ∈ s, isArtDigit c = false) : matchPatAt lit optDi reqTiao s = none := by
  rw [matchPatAt]
  split
  · apply matchDigitsCore_none
    have hdrop : ∀ c ∈ s.drop lit.length, isArtDigit c = false := fun c hc =>
      h c (List.drop_subset _ _ hc)
    cases optDi
    · rw [if_neg Bool.false_ne_true]
      exact hdrop
    · rw [if_pos rfl]
      exact fun c hc => hdrop c (dropDi_subset c hc)
  · rfl

theorem searchPat_none {lit : JStr} {optDi reqTiao : Bool} :
    ∀ s : JStr, (∀ c ∈ s, isArtDigit c = false) →
      searchPat lit optDi reqTiao s = none
  | [], h => by
    rw [searchPat]
    exact matchPatAt_none h
  | c :: rest, h => by
    rw [searchPat, matchPatAt_none h]
    exact searchPat_none rest (fun d hd => h d (List.mem_cons_of_mem _ hd))

/-- C7: the extractor normalizes full-width digits, tries its anchored
pattern list in order, and yields 24/38/30 on the cited inputs and none on
text without any digit (hence without any article phrase). -/
theorem c7_extractArticleNumber :
    extractArticleNumber (js "勞基法第24條") = some 24 ∧
    extractArticleNumber (js "第 38 條") = some 38 ∧
    extractArticleNumber (js "勞動基準法30條") = some 30 ∧
    extractArticleNumber (js "勞基法第２４條") = some 24 ∧
    extractArticleNumber (js "加班費怎麼算") = none ∧
    ∀ text : JStr, (∀ c ∈ text, isArtDigit c = false) →
      extractArticleNumber text = none := by
  refine ⟨by decide, by decide, by decide, by decide, by decide, ?_⟩
  intro text h
  have hf : ∀ c ∈ text.filter (fun c => !isWs c), isArtDigit c = false :=
    fun c hc => h c (List.mem_of_mem_filter hc)
  rw [extractArticleNumber]
  rw [searchPat_none _ hf, searchPat_none _ hf, searchPat_none _ hf,
      searchPat_none _ hf, searchPat_none _ hf]

/-- Closed witness for C7's universal part at a digit-free text. -/
theorem c7_extractArticleNumber_witness :
    extractArticleNumber (js "特休沒休完可以換錢嗎") = none := by
  exact c7_extractArticleNumber.2.2.2.2.2 (js "特休沒休完可以換錢嗎") (by decide)

/-! ## C8: global reference scan as a set -/

theorem mem_addDistinct {acc : List Nat} {m n : Nat} :
    m ∈ addDistinct acc n ↔ m ∈ acc ∨ m = n := by
  rw [addDistinct]
  split
  · constructor
    · exact Or.inl
    · rintro (h | h)
      · exact h
      · subst h; assumption
  · rw [List.mem_append, List.mem_singleton]

theorem nodup_addDistinct {acc : List Nat} (h : acc.Nodup) (n : Nat) :
    (addDistinct acc n).Nodup := by
  rw [addDistinct]
  split
  · exact h
  · refine List.Nodup.append h (List.nodup_singleton n) ?_
    intro a ha hb
    rw [List.mem_singleton] at hb
    subst hb
    exact absurd ha (by assumption)

theorem mem_foldl_addDistinct :
    ∀ (l acc : List Nat) (m : Nat),
      m ∈ l.foldl addDistinct acc ↔ m ∈ acc ∨ m ∈ l
  | [], acc, m => by simp
  | n :: l, acc, m => by
    rw [List.foldl_cons, mem_foldl_addDistinct l (addDistinct acc n) m,
        mem_addDistinct, List.mem_cons]
    tauto

theorem nodup_foldl_addDistinct :
    ∀ (l acc : List Nat), acc.Nodup → (l.foldl addDistinct acc).Nodup
  | [], _, h => h
  | n :: l, acc, h =>
    nodup_foldl_addDistinct l (addDistinct acc n) (nodup_addDistinct h n)

/-- C8: `extractLawNumbers` returns exactly the set of scanned `第N條`
numbers in range, without duplicates: membership depends only on which
matches occur, not on their order or multiplicity; on the cited inputs the
result is the set with elements 11 and 17 either way. -/
theorem c8_extractLawNumbers :
    (∀ (text : JStr) (n : Nat),
        n ∈ extractLawNumbers text ↔ n ∈ scanLaw text ∧ 0 < n ∧ n < 1000) ∧
    (∀ text : JStr, (extractLawNumbers text).Nodup) ∧
    extractLawNumbers (js "依第11條與第17條解僱") = [11, 17] ∧
    extractLawNumbers (js "依第17條與第11條解僱") = [17, 11] ∧
    extractLawNumbers (js "第17條、第11條、再提第11條") = [17, 11] ∧
    (∀ n : Nat,
        n ∈ extractLawNumbers (js "依第11條與第17條解僱") ↔
          n ∈ extractLawNumbers (js "第17條、第11條、再提第11條")) := by
  refine ⟨?_, ?_, by decide, by decide, by decide, ?_⟩
  · intro text n
    rw [extractLawNumbers, mem_foldl_addDistinct]
    constructor
    · rintro (h | h)
      · cases h
      · rw [List.mem_filter] at h
        exact ⟨h.1, of_decide_eq_true h.2⟩
    · intro ⟨h1, h2⟩
      refine Or.inr ?_
      rw [List.mem_filter]
      exact ⟨h1, decide_eq_true h2⟩
  · intro text
    exact nodup_foldl_addDistinct _ _ List.nodup_nil
  · intro n
    have e1 : extractLawNumbers (js "依第11條與第17條解僱") = [11, 17] := by decide
    have e2 : extractLawNumbers (js "第17條、第11條、再提第11條") = [17, 11] := by decide
    rw [e1, e2]
    constructor
    · intro h
      rcases List.mem_cons.mp h with h | h
      · subst h; exact List.mem_cons_of_mem _ (List.mem_cons_self _ _)
      · rw [List.mem_singleton] at h
        subst h; exact List.mem_cons_self _ _
    · intro h
      rcases List.mem_cons.mp h with h | h
      · subst h; exact List.mem_cons_of_mem _ (List.mem_cons_self _ _)
      · rw [List.mem_singleton] at h
        subst h; exact List.mem_cons_self _ _

/-! ## C3: retry, backoff and the degradation ladder -/

theorem retryGo_allFail (oracle : Nat → CallOutcome) (jitter : Nat → Nat)
    (h : ∀ n c, oracle n ≠ CallOutcome.success c) (base : Nat) :
    ∀ (fuel attempt : Nat), ∃ b, (retryGo oracle jitter base attempt fuel).result =
      Except.error b := by
  intro fuel
  induction fuel with
  | zero =>
    intro attempt
    match ho : oracle (base + attempt) with
    | .success c => exact absurd ho (h _ c)
    | .failure b =>
      rw [retryGo, ho]
      exact ⟨b, rfl⟩
  | succ f ih =>
    intro attempt
    match ho : oracle (base + attempt) with
    | .success c => exact absurd ho (h _ c)
    | .failure false =>
      rw [retryGo, ho]
      exact ⟨false, rfl⟩
    | .failure true =>
      rw [retryGo, ho]
      exact ih (attempt + 1)

theorem openaiChatWithRetry_allFail (oracle : Nat → CallOutcome) (jitter : Nat → Nat)
    (h : ∀ n c, oracle n ≠ CallOutcome.success c) (base retries : Nat) :
    ∃ b, (openaiChatWithRetry oracle jitter base retries).result = Except.error b :=
  retryGo_allFail oracle jitter h base retries 0

theorem retryGo_allTransient (oracle : Nat → CallOutcome) (jitter : Nat → Nat)
    (base : Nat) :
    ∀ (fuel attempt : Nat),
      (∀ k, k ≤ fuel → oracle (base + attempt + k) = CallOutcome.failure true) →
      retryGo oracle jitter base attempt fuel =
        ⟨Except.error true, attempt + fuel + 1,
         (List.range fuel).map (fun k => 1000 * 2 ^ (attempt + k) + jitter (attempt + k))⟩ := by
  intro fuel
  induction fuel with
  | zero =>
    intro attempt h
    have h0 : oracle (base + attempt) = CallOutcome.failure true := by
      have := h 0 (le_refl 0)
      rwa [Nat.add_zero] at this
    rw [retryGo, h0]
    rfl
  | succ f ih =>
    intro attempt h
    have h0 : oracle (base + attempt) = CallOutcome.failure true := by
      have := h 0 (Nat.zero_le _)
      rwa [Nat.add_zero] at this
    have hshift : ∀ k, k ≤ f → oracle (base + (attempt + 1) + k) = CallOutcome.failure true := by
      intro k hk
      have := h (k + 1) (by omega)
      rwa [show base + attempt + (k + 1) = base + (attempt + 1) + k by omega] at this
    rw [retryGo, h0, ih (attempt + 1) hshift]
    simp only [RetryTrace.mk.injEq]
    refine ⟨trivial, by omega, ?_⟩
    rw [List.range_succ_eq_map, List.map_cons, List.map_map]
    refine congrArg₂ List.cons (by rw [Nat.add_zero]) ?_
    refine congrArg (fun g => List.map g (List.range f)) ?_
    funext k
    simp only [Function.comp_apply]
    rw [show (attempt + 1) + k = attempt + (k + 1) by omega]

theorem openaiChatWithRetry_allTransient (oracle : Nat → CallOutcome)
    (jitter : Nat → Nat) (base retries : Nat)
    (h : ∀ k, k ≤ retries → oracle (base + k) = CallOutcome.failure true) :
    openaiChatWithRetry oracle jitter base retries =
      ⟨Except.error true, retries + 1,
       (List.range retries).map (fun k => 1000 * 2 ^ k + jitter k)⟩ := by
  rw [openaiChatWithRetry, retryGo_allTransient oracle jitter base retries 0
    (by intro k hk; rw [Nat.add_zero]; exact h k hk)]
  rw [Nat.zero_add]
  refine congrArg (RetryTrace.mk (Except.error true) (retries + 1)) ?_
  refine congrArg (fun l => List.map l (List.range retries)) ?_
  funext k
  rw [Nat.zero_add]

/-- C3: the gateway's degradation ladder and retry policy.  When every call
fails, a detailed request attempts exactly the tier chains `detailed#1`,
`detailed#2` (the reduced-token detailed retry) and `concise#fallback`, in
that order, and returns `none` instead of raising.  A tier whose first call
fails non-transiently issues exactly one call — zero retries and no backoff
delay.  A tier whose calls all fail transiently issues `retries + 1` calls
with backoff delays `1000 * 2 ^ k` plus the drawn jitter. -/
theorem c3_gateway_degradation :
    (∀ (oracle : Nat → CallOutcome) (jitter : Nat → Nat),
        (∀ n c, oracle n ≠ CallOutcome.success c) →
        (askOpenAIForLaborHelp true oracle jitter Mode.detailed).1 = none ∧
        (askOpenAIForLaborHelp true oracle jitter Mode.detailed).2.map Prod.fst =
          ["detailed#1", "detailed#2", "concise#fallback"]) ∧
    (∀ (oracle : Nat → CallOutcome) (jitter : Nat → Nat) (base retries : Nat),
        oracle base = CallOutcome.failure false →
        (openaiChatWithRetry oracle jitter base retries).calls = 1 ∧
        (openaiChatWithRetry oracle jitter base retries).delays = []) ∧
    (∀ (oracle : Nat → CallOutcome) (jitter : Nat → Nat) (base retries : Nat),
        (∀ k, k ≤ retries → oracle (base + k) = CallOutcome.failure true) →
        (openaiChatWithRetry oracle jitter base retries).calls = retries + 1 ∧
        (openaiChatWithRetry oracle jitter base retries).delays =
          (List.range retries).map (fun k => 1000 * 2 ^ k + jitter k)) := by
  refine ⟨?_, ?_, ?_⟩
  · intro oracle jitter h
    obtain ⟨b1, h1⟩ := openaiChatWithRetry_allFail oracle jitter h 0 1
    obtain ⟨b2, h2⟩ := openaiChatWithRetry_allFail oracle jitter h
      (openaiChatWithRetry oracle jitter 0 1).calls 1
    obtain ⟨b3, h3⟩ := openaiChatWithRetry_allFail oracle jitter h
      ((openaiChatWithRetry oracle jitter 0 1).calls +
        (openaiChatWithRetry oracle jitter
          (openaiChatWithRetry oracle jitter 0 1).calls 1).calls) 1
    rw [askOpenAIForLaborHelp]
    rw [if_neg (by simp)]
    simp only [h1, h2, h3, isDetailedMode, if_pos rfl, tier1Label]
    exact ⟨rfl, rfl⟩
  · intro oracle jitter base retries h
    have h0 : oracle (base + 0) = CallOutcome.failure false := by rwa [Nat.add_zero]
    rcases retries with _ | r
    · rw [openaiChatWithRetry, retryGo, h0]
      exact ⟨rfl, rfl⟩
    · rw [openaiChatWithRetry, retryGo, h0]
      exact ⟨rfl, rfl⟩
  · intro oracle jitter base retries h
    rw [openaiChatWithRetry_allTransient oracle jitter base retries h]
    exact ⟨rfl, rfl⟩

/-- Closed witness for C3 under an always-transiently-failing oracle and a
single non-transient failure. -/
theorem c3_gateway_degradation_witness :
    ((askOpenAIForLaborHelp true (fun _ => CallOutcome.failure true) (fun _ => 7)
        Mode.detailed).1 = none ∧
     (askOpenAIForLaborHelp true (fun _ => CallOutcome.failure true) (fun _ => 7)
        Mode.detailed).2.map Prod.fst =
       ["detailed#1", "detailed#2", "concise#fallback"]) ∧
    ((openaiChatWithRetry (fun _ => CallOutcome.failure false) (fun _ => 7) 0 2).calls = 1 ∧
     (openaiChatWithRetry (fun _ => CallOutcome.failure false) (fun _ => 7) 0 2).delays = []) ∧
    ((openaiChatWithRetry (fun _ => CallOutcome.failure true) (fun _ => 7) 0 2).calls = 3 ∧
     (openaiChatWithRetry (fun _ => CallOutcome.failure true) (fun _ => 7) 0 2).delays =
       [1007, 2007]) := by
  refine ⟨?_, ?_, ?_⟩
  · exact c3_gateway_degradation.1 (fun _ => CallOutcome.failure true) (fun _ => 7)
      (fun n c h => by cases h)
  · exact c3_gateway_degradation.2.1 (fun _ => CallOutcome.failure false) (fun _ => 7) 0 2 rfl
  · have h := c3_gateway_degradation.2.2 (fun _ => CallOutcome.failure true) (fun _ => 7) 0 2
      (fun k _ => rfl)
    exact ⟨h.1, by rw [h.2]; decide⟩

/-! ## C4: exact commands win the branch chain -/

theorem startsWithJ_append : ∀ {s p : JStr}, startsWithJ s p = true → ∃ t, s = p ++ t := by
  intro s p
  induction p generalizing s with
  | nil => exact fun _ => ⟨s, rfl⟩
  | cons d p ih =>
    cases s with
    | nil => intro h; cases h
    | cons c s =>
      intro h
      rw [startsWithJ] at h
      by_cases hcd : c = d
      · rw [if_pos hcd] at h
        obtain ⟨t, ht⟩ := ih h
        exact ⟨t, by rw [hcd, ht]; rfl⟩
      · rw [if_neg hcd] at h
        cases h

theorem lower_of_ws {c : Char} (h : isWs c = true) : Char.toLower c = c := by
  have hn : ¬(c.toNat ≥ 65 ∧ c.toNat ≤ 90) := by
    simp only [isWs, Bool.or_eq_true, decide_eq_true_eq, Bool.and_eq_true] at h
    omega
  rw [Char.toLower, if_neg hn]

theorem mem_takeWhile_pred {p : Char → Bool} :
    ∀ {l : JStr} {c : Char}, c ∈ l.takeWhile p → p c = true := by
  intro l
  induction l with
  | nil => intro c h; cases h
  | cons a t ih =>
    intro c h
    rw [List.takeWhile_cons] at h
    by_cases hp : p a
    · rw [if_pos hp] at h
      rcases List.mem_cons.mp h with h | h
      · exact h ▸ hp
      · exact ih h
    · rw [if_neg hp] at h
      cases h

theorem trim_decomp (l : JStr) :
    ∃ pre suf, l = pre ++ trimJ l ++ suf ∧
      (∀ c ∈ pre, isWs c = true) ∧ (∀ c ∈ suf, isWs c = true) := by
  refine ⟨l.takeWhile isWs, ((trimLeftJ l).reverse.takeWhile isWs).reverse, ?_, ?_, ?_⟩
  · conv_lhs => rw [← List.takeWhile_append_dropWhile (p := isWs) (l := l)]
    rw [trimJ, List.append_assoc]
    refine congrArg (fun x => l.takeWhile isWs ++ x) ?_
    conv_lhs =>
      rw [show l.dropWhile isWs = trimLeftJ l from rfl,
          ← List.reverse_reverse (trimLeftJ l),
          ← List.takeWhile_append_dropWhile (p := isWs) (l := (trimLeftJ l).reverse)]
    rw [List.reverse_append]
  · exact fun c hc => mem_takeWhile_pred hc
  · intro c hc
    rw [List.mem_reverse] at hc
    exact mem_takeWhile_pred hc

theorem normalize_ws_nil {l : JStr} (h : ∀ c ∈ l, isWs c = true) : normalizeJ l = [] := by
  induction l with
  | nil => rfl
  | cons c t ih =>
    have hc := h c (List.mem_cons_self c t)
    rw [normalizeJ, List.map_cons, List.filter_cons, lower_of_ws hc, hc]
    exact ih (fun d hd => h d (List.mem_cons_of_mem _ hd))

theorem normalize_append (a b : JStr) :
    normalizeJ (a ++ b) = normalizeJ a ++ normalizeJ b := by
  rw [normalizeJ, List.map_append, List.filter_append]
  rfl

theorem normalize_eq_lowerTrimmed (t : JStr) :
    normalizeJ t = ((trimJ t).map Char.toLower).filter (fun c => !isWs c) := by
  obtain ⟨pre, suf, hdec, hpre, hsuf⟩ := trim_decomp t
  conv_lhs => rw [hdec]
  rw [normalize_append, normalize_append, normalize_ws_nil hpre, normalize_ws_nil hsuf,
      List.nil_append, List.append_nil]
  rfl

theorem aiGuard_shape {t : JStr}
    (hg : (startsWithJ ((trimJ t).map Char.toLower) (js "ai/") ||
           startsWithJ ((trimJ t).map Char.toLower) (js "ai+")) = true) :
    ∃ z rest, normalizeJ t = 'a' :: 'i' :: z :: rest := by
  rw [Bool.or_eq_true] at hg
  rcases hg with hg | hg
  · obtain ⟨tail, htail⟩ := startsWithJ_append hg
    refine ⟨'/', tail.filter (fun c => !isWs c), ?_⟩
    rw [normalize_eq_lowerTrimmed, htail]
    rfl
  · obtain ⟨tail, htail⟩ := startsWithJ_append hg
    refine ⟨'+', tail.filter (fun c => !isWs c), ?_⟩
    rw [normalize_eq_lowerTrimmed, htail]
    rfl

theorem aiGuard_false_of_cmd {t cmd : JStr} (h : normalizeJ t = cmd)
    (hhead : ∀ z rest, cmd ≠ 'a' :: 'i' :: z :: rest) :
    (startsWithJ ((trimJ t).map Char.toLower) (js "ai/") ||
     startsWithJ ((trimJ t).map Char.toLower) (js "ai+")) = false := by
  by_cases hb : (startsWithJ ((trimJ t).map Char.toLower) (js "ai/") ||
      startsWithJ ((trimJ t).map Char.toLower) (js "ai+")) = true
  · exfalso
    obtain ⟨z, rest, hz⟩ := aiGuard_shape hb
    rw [h] at hz
    exact hhead z rest hz
  · exact Bool.not_eq_true _ |>.mp hb

theorem cmd_not_ai {cmd : JStr} {c0 : Char} {rest0 : JStr} (hc : cmd = c0 :: rest0)
    (hne : c0 ≠ 'a') : ∀ z rest, cmd ≠ 'a' :: 'i' :: z :: rest := by
  intro z rest h
  rw [hc] at h
  injection h with h1 _
  exact hne h1

/-- C4: the handler checks its branches in fixed order, the first match
wins, and the result is a single `Reply`.  In particular every input whose
normalized text equals one of the exact commands is answered by that
command's template: none of the earlier branches (AI prefix, calculator
guards) can match such an input, and the later branches — including the
article-reference branch — are never consulted, whatever
`extractArticleNumber` would say about the raw text. -/
theorem c4_exact_commands (arts : List Article) (faqs : List Faq) (av : Bool)
    (ai : Mode → JStr → Option JStr) (t : JStr) :
    (normalizeJ t = js "功能" → handleText arts faqs av ai t = Reply.menu) ∧
    (normalizeJ t = js "help" → handleText arts faqs av ai t = Reply.menu) ∧
    (normalizeJ t = js "使用說明" → handleText arts faqs av ai t = Reply.menu) ∧
    (normalizeJ t = js "加班相關" →
      handleText arts faqs av ai t = Reply.overtimeExamples) ∧
    (normalizeJ t = js "特休相關" →
      handleText arts faqs av ai t = Reply.annualLeaveExamples) ∧
    (normalizeJ t = js "休假相關" →
      handleText arts faqs av ai t = Reply.annualLeaveExamples) ∧
    (normalizeJ t = js "離職相關" →
      handleText arts faqs av ai t = Reply.resignExamples) ∧
    (normalizeJ t = js "資遣相關" →
      handleText arts faqs av ai t = Reply.resignExamples) ∧
    (normalizeJ t = js "離職資遣相關" →
      handleText arts faqs av ai t = Reply.resignExamples) := by
  refine ⟨?_, ?_, ?_, ?_, ?_, ?_, ?_, ?_, ?_⟩
  · intro h
    have hg := aiGuard_false_of_cmd h
      (cmd_not_ai (show js "功能" = '功' :: js "能" from rfl) (by decide))
    rw [handleText, h, handleTextCore, hg, if_neg (by decide), if_neg (by decide),
        if_neg (by decide), if_neg (by decide), if_neg (by decide), if_pos (by decide)]
  · intro h
    have hg := aiGuard_false_of_cmd h
      (cmd_not_ai (show js "help" = 'h' :: js "elp" from rfl) (by decide))
    rw [handleText, h, handleTextCore, hg, if_neg (by decide), if_neg (by decide),
        if_neg (by decide), if_neg (by decide), if_neg (by decide), if_pos (by decide)]
  · intro h
    have hg := aiGuard_false_of_cmd h
      (cmd_not_ai (show js "使用說明" = '使' :: js "用說明" from rfl) (by decide))
    rw [handleText, h, handleTextCore, hg, if_neg (by decide), if_neg (by decide),
        if_neg (by decide), if_neg (by decide), if_neg (by decide), if_pos (by decide)]
  · intro h
    have hg := aiGuard_false_of_cmd h
      (cmd_not_ai (show js "加班相關" = '加' :: js "班相關" from rfl) (by decide))
    rw [handleText, h, handleTextCore, hg, if_neg (by decide), if_neg (by decide),
        if_neg (by decide), if_neg (by decide), if_neg (by decide), if_neg (by decide),
        if_pos (by decide)]
  · intro h
    have hg := aiGuard_false_of_cmd h
      (cmd_not_ai (show js "特休相關" = '特' :: js "休相關" from rfl) (by decide))
    rw [handleText, h, handleTextCore, hg, if_neg (by decide), if_neg (by decide),
        if_neg (by decide), if_neg (by decide), if_neg (by decide), if_neg (by decide),
        if_neg (by decide), if_pos (by decide)]
  · intro h
    have hg := aiGuard_false_of_cmd h
      (cmd_not_ai (show js "休假相關" = '休' :: js "假相關" from rfl) (by decide))
    rw [handleText, h, handleTextCore, hg, if_neg (by decide), if_neg (by decide),
        if_neg (by decide), if_neg (by decide), if_neg (by decide), if_neg (by decide),
        if_neg (by decide), if_pos (by decide)]
  · intro h
    have hg := aiGuard_false_of_cmd h
      (cmd_not_ai (show js "離職相關" = '離' :: js "職相關" from rfl) (by decide))
    rw [handleText, h, handleTextCore, hg, if_neg (by decide), if_neg (by decide),
        if_neg (by decide), if_neg (by decide), if_neg (by decide), if_neg (by decide),
        if_neg (by decide), if_neg (by decide), if_pos (by decide)]
  · intro h
    have hg := aiGuard_false_of_cmd h
      (cmd_not_ai (show js "資遣相關" = '資' :: js "遣相關" from rfl) (by decide))
    rw [handleText, h, handleTextCore, hg, if_neg (by decide), if_neg (by decide),
        if_neg (by decide), if_neg (by decide), if_neg (by decide), if_neg (by decide),
        if_neg (by decide), if_neg (by decide), if_pos (by decide)]
  · intro h
    have hg := aiGuard_false_of_cmd h
      (cmd_not_ai (show js "離職資遣相關" = '離' :: js "職資遣相關" from rfl) (by decide))
    rw [handleText, h, handleTextCore, hg, if_neg (by decide), if_neg (by decide),
        if_neg (by decide), if_neg (by decide), if_neg (by decide), if_neg (by decide),
        if_neg (by decide), if_neg (by decide), if_pos (by decide)]

/-- Closed witness for C4: the menu command on an arbitrary small context,
and a category command containing extra whitespace and case noise. -/
theorem c4_exact_commands_witness :
    handleText [] [] false (fun _ _ => none) (js "功能") = Reply.menu ∧
    handleText [⟨24, [], [], []⟩] [] true (fun _ _ => some (js "x"))
      (js " HELP ") = Reply.menu ∧
    handleText [] [] false (fun _ _ => none) (js "離職相關") = Reply.resignExamples := by
  refine ⟨?_, ?_, ?_⟩
  · exact (c4_exact_commands [] [] false (fun _ _ => none) (js "功能")).1 (by decide)
  · exact (c4_exact_commands [⟨24, [], [], []⟩] [] true (fun _ _ => some (js "x"))
      (js " HELP ")).2.1 (by decide)
  · exact (c4_exact_commands [] [] false (fun _ _ => none)
      (js "離職相關")).2.2.2.2.2.2.1 (by decide)

end LaborBot
